import Mathlib

/-!
ZPHS01B driver (src/ZPHS01B.cpp): frame protocol and field accessors

A shallow embedding of the class `ZPHS01B`.

* A byte (`uint8_t`) is a `Fin 256`; all arithmetic is done on natural numbers or
  integers with the reduction to the width of the destination written out.
* The serial port `_serial` is two byte sequences: `rx`, the bytes waiting in the
  receive buffer (oldest first), and `tx`, every byte written so far (oldest first).
* The union `_unionFrame` is the byte sequence `buffer`; the struct view `MHZ19B`
  of the union is reached through the byte offsets of a `Layout`.
* The header `ZPHS01B.h` is not among the sources.  What the code takes from it
  (the constant `SIZEOF_FRAME` and the position of every struct field inside the
  union) is the parameter `Layout`.
* The diagnostic prints go to the global console `Serial`, which is not the sensor
  port `_serial`; the console and the `delay(20)` are left out.
* An `int` expression is evaluated in the integers (an `int` wide enough for
  0..65535, as on the ESP8266); a product with a floating constant is evaluated in
  the rationals and then converted to the return type.
-/

/-- An 8-bit unsigned machine value (`uint8_t`). -/
abbrev Byte := Fin 256

/-- What `ZPHS01B.cpp` uses from the header `ZPHS01B.h`: the frame size
`SIZEOF_FRAME` and, for each field of the struct `MHZ19B`, the index of its first
byte inside `_unionFrame.buffer`. -/
structure Layout where
  sizeofFrame : Nat
  pm1 : Nat
  pm2 : Nat
  co2 : Nat
  voc : Nat
  temperature : Nat
  humidity : Nat
  ch2o : Nat
  co : Nat
  o3 : Nat
  no2 : Nat
  checkSum : Nat
deriving DecidableEq, Repr

/-- State of a `ZPHS01B` object together with the serial port it borrows. -/
structure ZPHS01B where
  rx : List Byte
  tx : List Byte
  buffer : List Byte
deriving DecidableEq, Repr

/-- Conversion of an `int` to `uint8_t`: reduction modulo 256. -/
def toUint8 (x : Int) : Nat := (x % 256).toNat

/-- Conversion of an `int` to `uint16_t`: reduction modulo 65536.  The `int`
expression itself is evaluated in the integers; a 16-bit `int` that wraps gives the
same value after this reduction. -/
def toUint16 (x : Int) : Nat := (x % 65536).toNat

/-- Conversion of a floating value to `uint16_t`: the fractional part is discarded
(truncation toward zero).  The conversion is defined only when the truncated value
fits the destination, otherwise the result is `none`.  Floating values are taken
as exact rationals. -/
def floatToUint16 (x : ℚ) : Option Nat :=
  let t : Int := if 0 ≤ x then ⌊x⌋ else ⌈x⌉
  if 0 ≤ t ∧ t ≤ 65535 then some t.toNat else none

namespace ZPHS01B

/-- `_serial.peek()`: the next byte to be read, or -1 when nothing is waiting. -/
def peek : List Byte → Int
  | [] => -1
  | b :: _ => (b.val : Int)

/-- `_serial.available()`: the number of bytes waiting. -/
def available (rx : List Byte) : Int := (rx.length : Int)

/-- `_serial.readBytes(buffer, n)`: moves up to `n` waiting bytes to the start of
the buffer; returns the buffer and the bytes still waiting. -/
def readBytes (buffer rx : List Byte) (n : Nat) : List Byte × List Byte :=
  let got := rx.take n
  (got ++ buffer.drop got.length, rx.drop n)

/-- `_serial.write(b)`. -/
def write (s : ZPHS01B) (b : Byte) : ZPHS01B := { s with tx := s.tx ++ [b] }

/-- `_serial.flush()`: waits until the written bytes have left; no byte is added
or removed. -/
def flush (s : ZPHS01B) : ZPHS01B := s

/-- Byte `i` of the struct field that starts at offset `off` of the union. -/
def field (s : ZPHS01B) (off i : Nat) : Byte := s.buffer.getD (off + i) 0

/-- The loop at the head of `_readData`:
`while( (_serial.peek() != 0xFF) && _serial.available() ) _serial.read();`
Returns the bytes still waiting when the loop ends. -/
def syncLoop : List Byte → List Byte
  | [] => []
  | b :: rest =>
    if peek (b :: rest) ≠ 0xFF ∧ available (b :: rest) ≠ 0 then syncLoop rest
    else b :: rest

/-- The loop
`for( uint8_t i=1; i < SIZEOF_FRAME-1; i++ ) calcCheckSum += _unionFrame.buffer[i];`
run from counter `i` and accumulator `c`.  Both are `uint8_t`, so both wrap at 256.
The first argument bounds the number of loop tests; `none` means the bound was
reached. -/
def checkSumLoop (N : Nat) (buf : List Byte) : Nat → Nat → Nat → Option Nat
  | 0, _, _ => none
  | fuel + 1, i, c =>
    if (i : Int) < (N : Int) - 1 then
      checkSumLoop N buf fuel ((i + 1) % 256) ((c + (buf.getD i 0).val) % 256)
    else some c

/-- `bool ZPHS01B::_readData(void)`.  The result is the returned flag and the state
after the call; `none` means that the call does not return.  The counter of the
checksum loop takes only 256 values and the loop test depends on the counter alone,
so a loop that has not ended after 256 tests never ends. -/
def _readData (L : Layout) (s : ZPHS01B) : Option (Bool × ZPHS01B) :=
  let rx1 := syncLoop s.rx
  if available rx1 < (L.sizeofFrame : Int) then
    some (false, { s with rx := rx1 })
  else
    let (buf0, rx2) := readBytes s.buffer rx1 L.sizeofFrame
    let tmp := buf0.getD 2 0
    let buf1 := buf0.set 2 (buf0.getD 3 0)
    let buf2 := buf1.set 3 tmp
    let s2 : ZPHS01B := { s with rx := rx2, buffer := buf2 }
    match checkSumLoop L.sizeofFrame buf2 256 1 0 with
    | none => none
    | some c =>
      let calcCheckSum := toUint8 (~~~(c : Int) + 1)
      if calcCheckSum ≠ (buf2.getD L.checkSum 0).val then some (false, s2)
      else some (true, s2)

/-- `uint8_t ZPHS01B::_calcCmdCheckSum( const uint8_t _cmd[] )`. -/
def _calcCmdCheckSum (cmd : List Byte) : Nat :=
  let checkSum := (List.range 3).foldl (fun c i => (c + (cmd.getD i 0).val) % 256) 0x01
  toUint8 (~~~(checkSum : Int) + 1)

/-- `void ZPHS01B::_sendCmd( const uint8_t _cmd[] )`. -/
def _sendCmd (cmd : List Byte) (s : ZPHS01B) : ZPHS01B :=
  let s := s.flush
  let s := s.write 0xFF
  let s := s.write 0x01
  let s := (List.range 3).foldl (fun s i => s.write (cmd.getD i 0)) s
  let s := (List.range 3).foldl (fun s _ => s.write 0x00) s
  let s := s.write (cmd.getD 3 0)
  s.flush

/-- The command array `cmd` that `read` builds. -/
def readCmd : List Byte := [0x86, 0x00, 0x00, 0x79]

/-- `bool ZPHS01B::read(void)`. -/
def read (L : Layout) (s : ZPHS01B) : Option (Bool × ZPHS01B) :=
  let s1 := _sendCmd readCmd s
  match _readData L s1 with
  | none => none
  | some (ok, s2) => if ok then some (true, s2) else some (false, s2)

/-- `uint16_t ZPHS01B::getPM1(void)`. -/
def getPM1 (L : Layout) (s : ZPHS01B) : Nat :=
  toUint16 ((s.field L.pm1 0).val * 256 + (s.field L.pm1 1).val)

/-- `uint16_t ZPHS01B::getPM2(void)`. -/
def getPM2 (L : Layout) (s : ZPHS01B) : Nat :=
  toUint16 ((s.field L.pm2 0).val * 256 + (s.field L.pm2 1).val)

/-- `uint16_t ZPHS01B::getCO2(void)`. -/
def getCO2 (L : Layout) (s : ZPHS01B) : Nat :=
  toUint16 ((s.field L.co2 0).val * 256 + (s.field L.co2 1).val)

/-- `uint16_t ZPHS01B::getHumidity(void)`. -/
def getHumidity (L : Layout) (s : ZPHS01B) : Nat :=
  toUint16 ((s.field L.humidity 0).val * 256 + (s.field L.humidity 1).val)

/-- `uint16_t ZPHS01B::getCH2O(void)`. -/
def getCH2O (L : Layout) (s : ZPHS01B) : Option Nat :=
  floatToUint16 ((((s.field L.ch2o 0).val * 256 + (s.field L.ch2o 1).val : Int) : ℚ) * 0.001)

/-- `uint16_t ZPHS01B::getCO(void)`. -/
def getCO (L : Layout) (s : ZPHS01B) : Option Nat :=
  floatToUint16 ((((s.field L.co 0).val * 256 + (s.field L.co 1).val : Int) : ℚ) * 0.001)

/-- `uint16_t ZPHS01B::getO3(void)`. -/
def getO3 (L : Layout) (s : ZPHS01B) : Option Nat :=
  floatToUint16 ((((s.field L.o3 0).val * 256 + (s.field L.o3 1).val : Int) : ℚ) * 0.001)

/-- `uint16_t ZPHS01B::getNO2(void)`. -/
def getNO2 (L : Layout) (s : ZPHS01B) : Option Nat :=
  floatToUint16 ((((s.field L.no2 0).val * 256 + (s.field L.no2 1).val : Int) : ℚ) * 0.001)

/-- The buffer after the exchange of its bytes 2 and 3 (the block with `tmp` in
`_readData`). -/
def swap23 (buf : List Byte) : List Byte :=
  (buf.set 2 (buf.getD 3 0)).set 3 (buf.getD 2 0)

/-- Sum of the bytes of `buf` at the indices `1 .. N-2`, taken in the naturals. -/
def payloadSum (N : Nat) (buf : List Byte) : Nat :=
  Finset.sum (Finset.Ico 1 (N - 1)) fun i => (buf.getD i 0).val

/-- The two's complement check value of a sum: `((~sum) + 1) mod 256`. -/
def checkValue (sum : Nat) : Nat := toUint8 (~~~(sum : Int) + 1)

/-- The frame that `_readData` leaves in the buffer when enough bytes wait. -/
def received (L : Layout) (s : ZPHS01B) : List Byte :=
  swap23 ((syncLoop s.rx).take L.sizeofFrame
    ++ s.buffer.drop ((syncLoop s.rx).take L.sizeofFrame).length)

/-- The byte `b` with bit `k` inverted. -/
def flipBit (b : Byte) (k : Fin 8) : Byte :=
  ⟨(b.val ^^^ 2 ^ k.val) % 256, Nat.mod_lt _ (by norm_num)⟩

/-- The 4-byte command array for `code`, `param1`, `param2`, with the value of
`_calcCmdCheckSum` in the fourth place. -/
def command (code param1 param2 : Byte) : List Byte :=
  [code, param1, param2,
    ⟨_calcCmdCheckSum [code, param1, param2] % 256, Nat.mod_lt _ (by norm_num)⟩]

/-- The bytes that `_sendCmd` transmits for that command. -/
def commandFrame (code param1 param2 : Byte) : List Byte :=
  (_sendCmd (command code param1 param2) ⟨[], [], []⟩).tx

/-- Value of a scalar struct member of `size` bytes that starts at offset `off` of
the union, in the byte order of the boards the source names (AVR, ESP8266): the
byte at the lowest address is the low-order one. -/
def scalar (s : ZPHS01B) (off size : Nat) : Nat :=
  ((List.range size).map fun i => (s.field off i).val * 256 ^ i).sum

/-- `uint16_t ZPHS01B::getVOC(void)`: returns the member `voc` itself, not a
combination of indexed bytes.  The type of `voc` is declared in the missing header;
`vocSize` is its size in bytes. -/
def getVOC (L : Layout) (vocSize : Nat) (s : ZPHS01B) : Nat :=
  toUint16 (scalar s L.voc vocSize)

/-- `uint16_t ZPHS01B::getTemp(void)`.  The `int` expression is evaluated in the
integers (an `int` that holds 0..65535), the product with 0.1 as a rational. -/
def getTemp (L : Layout) (s : ZPHS01B) : Option Nat :=
  floatToUint16
    (((((s.field L.temperature 0).val * 256 + (s.field L.temperature 1).val) - 500 : Int) : ℚ)
      * 0.1)

/-- The accessors of the class. -/
inductive Accessor where
  | getPM1
  | getPM2
  | getCO2
  | getVOC
  | getTemp
  | getHumidity
  | getCH2O
  | getCO
  | getO3
  | getNO2
deriving DecidableEq, Repr

/-- A call of an accessor as a step of the object: the value returned (`none` when
the conversion to the return type is undefined) and the state after the call.  No
accessor body assigns to a member or calls the serial port, so the state is handed
on as it came. -/
def callAccessor (L : Layout) (vocSize : Nat) : Accessor → ZPHS01B → Option Nat × ZPHS01B
  | .getPM1, s => (some (getPM1 L s), s)
  | .getPM2, s => (some (getPM2 L s), s)
  | .getCO2, s => (some (getCO2 L s), s)
  | .getVOC, s => (some (getVOC L vocSize s), s)
  | .getTemp, s => (getTemp L s, s)
  | .getHumidity, s => (some (getHumidity L s), s)
  | .getCH2O, s => (getCH2O L s, s)
  | .getCO, s => (getCO L s, s)
  | .getO3, s => (getO3 L s, s)
  | .getNO2, s => (getNO2 L s, s)

end ZPHS01B

/-- Modelled from the spec: a sample value of the parameter `Layout` for the
multi-gas variant of the response frame (the header `ZPHS01B.h` is missing): a
fixed length above 9, here 26 bytes, a two-byte header, the measurement fields in
protocol order and the checksum in the last byte.  It is used for concrete
evaluations only. -/
def multiGasLayout : Layout :=
  { sizeofFrame := 26, pm1 := 2, pm2 := 4, co2 := 8, voc := 10, temperature := 11,
    humidity := 13, ch2o := 15, co := 17, o3 := 19, no2 := 21, checkSum := 25 }

/-- Modelled from the spec: a sample value of the parameter `Layout` for the
9-byte simple command/response variant (the header `ZPHS01B.h` is missing): a
two-byte header, the CO2 field in bytes 2 and 3 and the checksum in the last byte;
the offsets of the other fields are placed inside the frame.  It is used for
concrete evaluations only. -/
def basicLayout : Layout :=
  { sizeofFrame := 9, pm1 := 4, pm2 := 4, co2 := 2, voc := 4, temperature := 4,
    humidity := 6, ch2o := 6, co := 6, o3 := 6, no2 := 6, checkSum := 8 }

/-- A 26-byte response as it arrives on the wire, with a correct checksum
(0x73). -/
def goodWire : List Byte :=
  [0xFF, 0x86, 0x00, 0x0A, 0x00, 0x14, 0x00, 0x1E, 0x01, 0x90, 0x01, 0x02, 0xEE,
   0x01, 0xF4, 0x05, 0xDC, 0x00, 0x64, 0x00, 0x0A, 0x00, 0x05, 0x00, 0x00, 0x73]

/-- The buffer after `goodWire` has been received (bytes 2 and 3 exchanged). -/
def goodBuffer : List Byte :=
  [0xFF, 0x86, 0x0A, 0x00, 0x00, 0x14, 0x00, 0x1E, 0x01, 0x90, 0x01, 0x02, 0xEE,
   0x01, 0xF4, 0x05, 0xDC, 0x00, 0x64, 0x00, 0x0A, 0x00, 0x05, 0x00, 0x00, 0x73]

/-- The response `goodWire` with byte 8 changed from 0x01 to 0x03 and the checksum
byte left as it was, so that the checksum no longer matches. -/
def badWire : List Byte :=
  [0xFF, 0x86, 0x00, 0x0A, 0x00, 0x14, 0x00, 0x1E, 0x03, 0x90, 0x01, 0x02, 0xEE,
   0x01, 0xF4, 0x05, 0xDC, 0x00, 0x64, 0x00, 0x0A, 0x00, 0x05, 0x00, 0x00, 0x73]

/-- The buffer after `badWire` has been received (bytes 2 and 3 exchanged). -/
def badBuffer : List Byte :=
  [0xFF, 0x86, 0x0A, 0x00, 0x00, 0x14, 0x00, 0x1E, 0x03, 0x90, 0x01, 0x02, 0xEE,
   0x01, 0xF4, 0x05, 0xDC, 0x00, 0x64, 0x00, 0x0A, 0x00, 0x05, 0x00, 0x00, 0x73]

/-- A 26-byte response with the temperature field 01 90 (raw 400, ten degrees below
zero) and a correct checksum (0xD2). -/
def coldWire : List Byte :=
  [0xFF, 0x86, 0x00, 0x0A, 0x00, 0x14, 0x00, 0x1E, 0x01, 0x90, 0x01, 0x01, 0x90,
   0x01, 0xF4, 0x05, 0xDC, 0x00, 0x64, 0x00, 0x0A, 0x00, 0x05, 0x00, 0x00, 0xD2]

/-- The buffer after `coldWire` has been received (bytes 2 and 3 exchanged). -/
def coldBuffer : List Byte :=
  [0xFF, 0x86, 0x0A, 0x00, 0x00, 0x14, 0x00, 0x1E, 0x01, 0x90, 0x01, 0x01, 0x90,
   0x01, 0xF4, 0x05, 0xDC, 0x00, 0x64, 0x00, 0x0A, 0x00, 0x05, 0x00, 0x00, 0xD2]

/-! Auxiliary facts -/

namespace ZPHS01B

theorem toUint8_lt (x : Int) : toUint8 x < 256 := by
  unfold toUint8
  omega

theorem checkValue_eq (n : Nat) : checkValue n = (256 - n % 256) % 256 := by
  unfold checkValue toUint8
  have h : ~~~(n : Int) = -(n : Int) - 1 := by
    show Int.not (Int.ofNat n) = _
    simp only [Int.not, Int.negSucc_eq, Int.ofNat_eq_coe]
    omega
  rw [h]
  omega

theorem checkValue_mod (n : Nat) : checkValue (n % 256) = checkValue n := by
  rw [checkValue_eq, checkValue_eq]
  omega

theorem getD_set_eq (l : List Byte) (j : Nat) (x : Byte) (h : j < l.length) :
    (l.set j x).getD j 0 = x := by
  simp [List.getD_eq_getElem?_getD, List.getElem?_set, h]

theorem getD_set_ne (l : List Byte) (i j : Nat) (x : Byte) (h : j ≠ i) :
    (l.set j x).getD i 0 = l.getD i 0 := by
  simp [List.getD_eq_getElem?_getD, List.getElem?_set, h]

theorem getD_swap23 (buf : List Byte) (h : 4 ≤ buf.length) (i : Nat) :
    (swap23 buf).getD i 0
      = if i = 2 then buf.getD 3 0 else if i = 3 then buf.getD 2 0 else buf.getD i 0 := by
  unfold swap23
  by_cases h3 : i = 3
  · subst h3
    rw [getD_set_eq _ _ _ (by simp; omega)]
    simp
  · rw [getD_set_ne _ _ _ _ (fun h => h3 h.symm)]
    by_cases h2 : i = 2
    · subst h2
      rw [getD_set_eq _ _ _ (by omega)]
      simp
    · rw [getD_set_ne _ _ _ _ (fun h => h2 h.symm)]
      simp [h2, h3]

theorem getD_take_append (l r : List Byte) (N i : Nat) (hN : N ≤ l.length) (hi : i < N) :
    (l.take N ++ r).getD i 0 = l.getD i 0 := by
  have h1 : i < (l.take N).length := by simp; omega
  simp only [List.getD_eq_getElem?_getD]
  rw [List.getElem?_append_left h1, List.getElem?_take_of_lt hi]

theorem checkSumLoop_eq (N : Nat) (buf : List Byte) (hN : N ≤ 256) :
    ∀ fuel i c : Nat, i + 1 ≤ N → N - 1 - i < fuel → c < 256 →
      checkSumLoop N buf fuel i c
        = some ((c + Finset.sum (Finset.Ico i (N - 1)) fun j => (buf.getD j 0).val) % 256) := by
  intro fuel
  induction fuel with
  | zero => intro i c _ h; omega
  | succ fuel ih =>
    intro i c hi hf hc
    unfold checkSumLoop
    by_cases hlt : (i : Int) < (N : Int) - 1
    · have hi2 : i < N - 1 := by omega
      rw [if_pos hlt]
      have hmod : (i + 1) % 256 = i + 1 := Nat.mod_eq_of_lt (by omega)
      rw [hmod, ih (i + 1) ((c + (buf.getD i 0).val) % 256) (by omega) (by omega)
        (Nat.mod_lt _ (by norm_num)), Finset.sum_eq_sum_Ico_succ_bot hi2]
      congr 1
      omega
    · have hi2 : i = N - 1 := by omega
      rw [if_neg hlt, hi2]
      simp [Nat.mod_eq_of_lt hc]

theorem payloadSum_congr (N : Nat) (a b : List Byte)
    (h : ∀ i, 1 ≤ i → i < N - 1 → a.getD i 0 = b.getD i 0) :
    payloadSum N a = payloadSum N b := by
  unfold payloadSum
  apply Finset.sum_congr rfl
  intro i hi
  rw [Finset.mem_Ico] at hi
  rw [h i hi.1 hi.2]

theorem payloadSum_swap23 (N : Nat) (buf : List Byte) (hN : 5 ≤ N) (h : 4 ≤ buf.length) :
    payloadSum N (swap23 buf) = payloadSum N buf := by
  unfold payloadSum
  have h14 : 1 ≤ 4 := by norm_num
  have h4N : 4 ≤ N - 1 := by omega
  rw [← Finset.sum_Ico_consecutive _ h14 h4N, ← Finset.sum_Ico_consecutive _ h14 h4N]
  congr 1
  · have e : Finset.Ico 1 4 = {1, 2, 3} := by decide
    simp only [getD_swap23 buf h]
    rw [e]
    simp
    omega
  · apply Finset.sum_congr rfl
    intro i hi
    rw [Finset.mem_Ico] at hi
    rw [getD_swap23 buf h, if_neg (by omega), if_neg (by omega)]

theorem payloadSum_set (N : Nat) (l : List Byte) (j : Nat) (x : Byte)
    (h1 : 1 ≤ j) (h2 : j < N - 1) (hl : j < l.length) :
    payloadSum N (l.set j x) + (l.getD j 0).val = payloadSum N l + x.val := by
  unfold payloadSum
  have hj : j ∈ Finset.Ico 1 (N - 1) := Finset.mem_Ico.mpr ⟨h1, h2⟩
  rw [← Finset.add_sum_erase _ _ hj, ← Finset.add_sum_erase _ (fun i => (l.getD i 0).val) hj,
    getD_set_eq l j x hl]
  have e : Finset.sum ((Finset.Ico 1 (N - 1)).erase j) (fun i => ((l.set j x).getD i 0).val)
      = Finset.sum ((Finset.Ico 1 (N - 1)).erase j) (fun i => (l.getD i 0).val) := by
    apply Finset.sum_congr rfl
    intro i hi
    rw [getD_set_ne l i j x (fun h => (Finset.ne_of_mem_erase hi) h.symm)]
  rw [e]
  omega

theorem syncLoop_of_head (rx : List Byte) (h : rx.head? = some 0xFF) : syncLoop rx = rx := by
  cases rx with
  | nil => simp at h
  | cons b rest =>
    simp only [List.head?_cons, Option.some.injEq] at h
    subst h
    unfold syncLoop
    rw [if_neg]
    intro hc
    exact hc.1 rfl

theorem readData_of_enough (L : Layout) (s : ZPHS01B) (h2 : 2 ≤ L.sizeofFrame)
    (hN : L.sizeofFrame ≤ 256) (hlen : L.sizeofFrame ≤ (syncLoop s.rx).length) :
    _readData L s
      = some (decide (checkValue (payloadSum L.sizeofFrame (received L s))
                = ((received L s).getD L.checkSum 0).val),
              { s with rx := (syncLoop s.rx).drop L.sizeofFrame, buffer := received L s }) := by
  have hav : ¬ available (syncLoop s.rx) < (L.sizeofFrame : Int) := by
    unfold available
    omega
  have hloop := checkSumLoop_eq L.sizeofFrame (received L s) hN 256 1 0 (by omega) (by omega)
    (by norm_num)
  unfold _readData
  simp only [hav, if_false, readBytes]
  change (match checkSumLoop L.sizeofFrame (received L s) 256 1 0 with
    | none => none
    | some c => _) = _
  rw [hloop]
  simp only [Nat.zero_add]
  change (if toUint8 (~~~((payloadSum L.sizeofFrame (received L s) % 256 : Nat) : Int) + 1)
      ≠ ((received L s).getD L.checkSum 0).val then _ else _) = _
  have hcv : toUint8 (~~~((payloadSum L.sizeofFrame (received L s) % 256 : Nat) : Int) + 1)
      = checkValue (payloadSum L.sizeofFrame (received L s)) := by
    rw [← checkValue_mod]
    rfl
  rw [hcv]
  by_cases hc : checkValue (payloadSum L.sizeofFrame (received L s))
      = ((received L s).getD L.checkSum 0).val
  · rw [if_neg (not_not.mpr hc), decide_eq_true hc]
    rfl
  · rw [if_pos hc, decide_eq_false hc]
    rfl

theorem received_getD (L : Layout) (s : ZPHS01B) (h4 : 4 ≤ L.sizeofFrame)
    (hlen : L.sizeofFrame ≤ (syncLoop s.rx).length) (i : Nat) (hi : i < L.sizeofFrame) :
    (received L s).getD i 0
      = if i = 2 then (syncLoop s.rx).getD 3 0
        else if i = 3 then (syncLoop s.rx).getD 2 0 else (syncLoop s.rx).getD i 0 := by
  unfold received
  rw [getD_swap23 _ (by simp; omega), getD_take_append _ _ _ _ hlen (by omega),
    getD_take_append _ _ _ _ hlen (by omega), getD_take_append _ _ _ _ hlen hi]

theorem received_payloadSum (L : Layout) (s : ZPHS01B) (h5 : 5 ≤ L.sizeofFrame)
    (hlen : L.sizeofFrame ≤ (syncLoop s.rx).length) :
    payloadSum L.sizeofFrame (received L s) = payloadSum L.sizeofFrame (syncLoop s.rx) := by
  unfold received
  rw [payloadSum_swap23 _ _ h5 (by simp; omega)]
  apply payloadSum_congr
  intro i _ hi
  exact getD_take_append _ _ _ _ hlen (by omega)

theorem readData_of_frame (L : Layout) (s : ZPHS01B) (h5 : 5 ≤ L.sizeofFrame)
    (hN : L.sizeofFrame ≤ 256) (hck : L.checkSum = L.sizeofFrame - 1)
    (hlen : L.sizeofFrame ≤ (syncLoop s.rx).length) :
    _readData L s
      = some (decide (checkValue (payloadSum L.sizeofFrame (syncLoop s.rx))
                = ((syncLoop s.rx).getD (L.sizeofFrame - 1) 0).val),
              { s with rx := (syncLoop s.rx).drop L.sizeofFrame, buffer := received L s }) := by
  rw [readData_of_enough L s (by omega) hN hlen, received_payloadSum L s h5 hlen, hck,
    received_getD L s (by omega) hlen _ (by omega), if_neg (by omega), if_neg (by omega)]

set_option maxRecDepth 1000000 in
theorem flipBit_val : ∀ k : Fin 8, ∀ b : Byte,
    (flipBit b k).val = b.val + 2 ^ k.val ∨ (flipBit b k).val + 2 ^ k.val = b.val := by
  decide

theorem pow_bit_bounds (k : Fin 8) : 1 ≤ 2 ^ k.val ∧ 2 ^ k.val ≤ 128 := by
  revert k
  decide

theorem readData_tx (L : Layout) (s s1 : ZPHS01B) (ok : Bool)
    (h : _readData L s = some (ok, s1)) : s1.tx = s.tx := by
  unfold _readData at h
  simp only [readBytes] at h
  split at h
  · simp only [Option.some.injEq, Prod.mk.injEq] at h
    rw [← h.2]
  · split at h
    · exact absurd h (by simp)
    · split at h <;>
      · simp only [Option.some.injEq, Prod.mk.injEq] at h
        rw [← h.2]

theorem readData_insufficient (L : Layout) (s : ZPHS01B)
    (h : (syncLoop s.rx).length < L.sizeofFrame) :
    _readData L s = some (false, { s with rx := syncLoop s.rx }) := by
  have hav : available (syncLoop s.rx) < (L.sizeofFrame : Int) := by
    unfold available
    omega
  unfold _readData
  simp only [hav, if_true]

theorem sendCmd_eq (c0 c1 c2 c3 : Byte) (rest : List Byte) (s : ZPHS01B) :
    _sendCmd (c0 :: c1 :: c2 :: c3 :: rest) s
      = { s with tx := s.tx ++ [0xFF, 0x01, c0, c1, c2, 0x00, 0x00, 0x00, c3] } := by
  simp [_sendCmd, flush, write, List.range, List.range.loop]

theorem calcCmdCheckSum_eq (code param1 param2 : Byte) (rest : List Byte) :
    _calcCmdCheckSum (code :: param1 :: param2 :: rest)
      = checkValue (0x01 + code.val + param1.val + param2.val) := by
  rw [← checkValue_mod]
  unfold _calcCmdCheckSum checkValue
  simp only [List.range, List.range.loop, List.foldl_cons, List.foldl_nil, List.getD_cons_zero,
    List.getD_cons_succ]
  congr 3
  omega

/-- With a frame size above 256 the loop test holds for every value of the 8-bit
counter, so the loop never ends, whatever the bound on the number of tests. -/
theorem checkSumLoop_diverges (N : Nat) (buf : List Byte) (hN : 256 < N) :
    ∀ fuel i c : Nat, i < 256 → checkSumLoop N buf fuel i c = none := by
  intro fuel
  induction fuel with
  | zero => intro i c _; rfl
  | succ fuel ih =>
    intro i c hi
    unfold checkSumLoop
    rw [if_pos (by omega)]
    exact ih _ _ (Nat.mod_lt _ (by norm_num))

theorem checkSumLoop_small (N : Nat) (buf : List Byte) (hN : N ≤ 1) (fuel c : Nat) :
    checkSumLoop N buf (fuel + 1) 1 c = some c := by
  unfold checkSumLoop
  rw [if_neg (by omega)]

theorem readData_returns (L : Layout) (s : ZPHS01B) (hN : L.sizeofFrame ≤ 256) :
    ∃ ok s1, _readData L s = some (ok, s1) := by
  by_cases hlen : (syncLoop s.rx).length < L.sizeofFrame
  · exact ⟨_, _, readData_insufficient L s hlen⟩
  · by_cases h2 : 2 ≤ L.sizeofFrame
    · exact ⟨_, _, readData_of_enough L s h2 hN (by omega)⟩
    · have hav : ¬ available (syncLoop s.rx) < (L.sizeofFrame : Int) := by
        unfold available
        omega
      unfold _readData
      simp only [hav, if_false, readBytes]
      rw [checkSumLoop_small _ _ (by omega)]
      simp only
      split <;> exact ⟨_, _, rfl⟩

theorem commandFrame_eq (code param1 param2 : Byte) :
    commandFrame code param1 param2
      = [0xFF, 0x01, code, param1, param2, 0x00, 0x00, 0x00,
          ⟨_calcCmdCheckSum [code, param1, param2] % 256, Nat.mod_lt _ (by norm_num)⟩] := by
  unfold commandFrame command
  rw [sendCmd_eq]
  rfl

theorem toUint16_word (hi lo : Byte) :
    toUint16 ((hi.val : Int) * 256 + (lo.val : Int)) = hi.val * 256 + lo.val := by
  unfold toUint16
  omega

theorem floatToUint16_scaled (hi lo : Byte) :
    floatToUint16 ((((hi.val : Int) * 256 + (lo.val : Int) : Int) : ℚ) * 0.001)
      = some ((hi.val * 256 + lo.val) / 1000) := by
  have e : (((hi.val : Int) * 256 + (lo.val : Int) : Int) : ℚ) * 0.001
      = (((hi.val * 256 + lo.val : Nat) : Int) : ℚ) / ((1000 : Nat) : ℚ) := by
    push_cast
    norm_num
    ring
  have hnn : (0 : ℚ) ≤ (((hi.val * 256 + lo.val : Nat) : Int) : ℚ) / ((1000 : Nat) : ℚ) := by
    positivity
  unfold floatToUint16
  rw [e]
  simp only [hnn, if_true, Rat.floor_intCast_div_natCast]
  have hb : ((hi.val * 256 + lo.val : Nat) : Int) / ((1000 : Nat) : Int)
      = (((hi.val * 256 + lo.val) / 1000 : Nat) : Int) := by
    norm_cast
  rw [hb, if_pos (by omega), Int.toNat_ofNat]

end ZPHS01B

/-! Frame validation -/

/-- C1: for a frame size N = SIZEOF_FRAME with 5 <= N (and N <= 256, the range of
the 8-bit loop counter), the checksum field in the last byte, and a stream that
starts with 0xFF and holds at least N bytes b[0..N-1], `_readData` returns, and it
returns true exactly when ((~(b[1] + ... + b[N-2])) + 1) mod 256 equals b[N-1]. -/
theorem readData_true_iff_checksum (L : Layout) (s : ZPHS01B)
    (h5 : 5 ≤ L.sizeofFrame) (hN : L.sizeofFrame ≤ 256)
    (hck : L.checkSum = L.sizeofFrame - 1)
    (hhead : s.rx.head? = some 0xFF) (hlen : L.sizeofFrame ≤ s.rx.length) :
    ∃ ok s', ZPHS01B._readData L s = some (ok, s') ∧
      (ok = true ↔
        toUint8 (~~~((Finset.sum (Finset.Ico 1 (L.sizeofFrame - 1))
            (fun i => (s.rx.getD i 0).val) : Nat) : Int) + 1)
          = (s.rx.getD (L.sizeofFrame - 1) 0).val) := by
  have hs := ZPHS01B.syncLoop_of_head s.rx hhead
  have h := ZPHS01B.readData_of_frame L s h5 hN hck (by rw [hs]; exact hlen)
  rw [hs] at h
  exact ⟨_, _, h, by simp [ZPHS01B.checkValue, ZPHS01B.payloadSum]⟩

/-- Witness for C1: a 9-byte frame FF 86 01 02 03 04 05 06 65 with a correct
checksum. -/
theorem readData_true_iff_checksum_witness :
    ∃ ok s', ZPHS01B._readData basicLayout ⟨[0xFF, 0x86, 1, 2, 3, 4, 5, 6, 0x65], [], []⟩
        = some (ok, s') ∧
      (ok = true ↔
        toUint8 (~~~((Finset.sum (Finset.Ico 1 (basicLayout.sizeofFrame - 1))
            (fun i => (([0xFF, 0x86, 1, 2, 3, 4, 5, 6, 0x65] : List Byte).getD i 0).val) : Nat)
              : Int) + 1)
          = (([0xFF, 0x86, 1, 2, 3, 4, 5, 6, 0x65] : List Byte).getD
              (basicLayout.sizeofFrame - 1) 0).val) :=
  readData_true_iff_checksum basicLayout ⟨[0xFF, 0x86, 1, 2, 3, 4, 5, 6, 0x65], [], []⟩
    (by decide) (by decide) (by decide) (by decide) (by decide)



/-- C2: a frame of N = SIZEOF_FRAME bytes (5 <= N <= 256, checksum in the last
byte, first byte 0xFF) that `_readData` accepts is rejected once exactly one bit of
one byte at an index in 1..N-2 is inverted. -/
theorem readData_rejects_bit_flip (L : Layout) (s s1 : ZPHS01B)
    (h5 : 5 ≤ L.sizeofFrame) (hN : L.sizeofFrame ≤ 256)
    (hck : L.checkSum = L.sizeofFrame - 1)
    (hhead : s.rx.head? = some 0xFF) (hlen : L.sizeofFrame ≤ s.rx.length)
    (hacc : ZPHS01B._readData L s = some (true, s1))
    (j : Nat) (hj1 : 1 ≤ j) (hj2 : j ≤ L.sizeofFrame - 2) (k : Fin 8) :
    ∃ s2, ZPHS01B._readData L
        { s with rx := s.rx.set j (ZPHS01B.flipBit (s.rx.getD j 0) k) }
      = some (false, s2) := by
  have hs := ZPHS01B.syncLoop_of_head s.rx hhead
  have h := ZPHS01B.readData_of_frame L s h5 hN hck (by rw [hs]; exact hlen)
  rw [hs, hacc] at h
  have hok : ZPHS01B.checkValue (ZPHS01B.payloadSum L.sizeofFrame s.rx)
      = (s.rx.getD (L.sizeofFrame - 1) 0).val := by
    have := congrArg (fun r => r.map Prod.fst) h
    simpa using this.symm
  let t : ZPHS01B := { s with rx := s.rx.set j (ZPHS01B.flipBit (s.rx.getD j 0) k) }
  have hhead2 : t.rx.head? = some 0xFF := by
    show (s.rx.set j _).head? = _
    cases hrx : s.rx with
    | nil => rw [hrx] at hhead; simp at hhead
    | cons b rest =>
      rw [hrx] at hhead
      obtain ⟨j0, rfl⟩ : ∃ j0, j = j0 + 1 := ⟨j - 1, by omega⟩
      simpa using hhead
  have hs2 := ZPHS01B.syncLoop_of_head t.rx hhead2
  have hlen2 : L.sizeofFrame ≤ t.rx.length := by
    show L.sizeofFrame ≤ (s.rx.set j _).length
    simpa using hlen
  have h2 := ZPHS01B.readData_of_frame L t h5 hN hck (by rw [hs2]; exact hlen2)
  rw [hs2] at h2
  have hsum := ZPHS01B.payloadSum_set L.sizeofFrame s.rx j
    (ZPHS01B.flipBit (s.rx.getD j 0) k) hj1 (by omega) (by omega)
  have hlast : (t.rx.getD (L.sizeofFrame - 1) 0) = s.rx.getD (L.sizeofFrame - 1) 0 :=
    ZPHS01B.getD_set_ne s.rx _ j _ (by omega)
  have hne : ¬ ZPHS01B.checkValue (ZPHS01B.payloadSum L.sizeofFrame t.rx)
      = (t.rx.getD (L.sizeofFrame - 1) 0).val := by
    rw [hlast, ← hok, ZPHS01B.checkValue_eq, ZPHS01B.checkValue_eq]
    have hb := ZPHS01B.flipBit_val k (s.rx.getD j 0)
    have hp := ZPHS01B.pow_bit_bounds k
    change ZPHS01B.payloadSum L.sizeofFrame t.rx + _ = _ at hsum
    omega
  rw [decide_eq_false hne] at h2
  exact ⟨_, h2⟩

/-- Witness for C2: the accepted 26-byte frame `goodWire` with bit 1 of byte 8
inverted. -/
theorem readData_rejects_bit_flip_witness :
    ∃ s2, ZPHS01B._readData multiGasLayout
        { (⟨goodWire, [], []⟩ : ZPHS01B) with
          rx := goodWire.set 8 (ZPHS01B.flipBit (goodWire.getD 8 0) 1) }
      = some (false, s2) :=
  readData_rejects_bit_flip multiGasLayout ⟨goodWire, [], []⟩ ⟨[], [], goodBuffer⟩
    (by decide) (by decide) (by decide) (by decide) (by decide) (by decide)
    8 (by decide) (by decide) 1

/-! The cached frame after a failed read -/

/-- C3 (the code departs from the claim): with the frame `goodBuffer` cached
(CO2 = 400), a read of the response `badWire`, whose checksum does not match,
returns false and leaves `badBuffer` in the cache, so `getCO2` now returns 912. -/
theorem readData_mismatch_overwrites_cache :
    ZPHS01B._readData multiGasLayout ⟨badWire, [], goodBuffer⟩
        = some (false, ⟨[], [], badBuffer⟩) ∧
      badBuffer ≠ goodBuffer ∧
      ZPHS01B.getCO2 multiGasLayout ⟨badWire, [], goodBuffer⟩ = 400 ∧
      ZPHS01B.getCO2 multiGasLayout ⟨[], [], badBuffer⟩ = 912 := by
  decide

/-- C4: when fewer than SIZEOF_FRAME bytes remain once the leading bytes other than
0xFF have been discarded, `read` returns false, the cached frame is the one from
before the call, and `getCO2` returns the same value as before. -/
theorem read_insufficient_keeps_cache (L : Layout) (s : ZPHS01B)
    (h : (ZPHS01B.syncLoop s.rx).length < L.sizeofFrame) :
    ∃ s1, ZPHS01B.read L s = some (false, s1) ∧ s1.buffer = s.buffer ∧
      ZPHS01B.getCO2 L s1 = ZPHS01B.getCO2 L s := by
  have hrx : (ZPHS01B._sendCmd ZPHS01B.readCmd s).rx = s.rx := by
    rw [ZPHS01B.readCmd, ZPHS01B.sendCmd_eq]
  have hbuf : (ZPHS01B._sendCmd ZPHS01B.readCmd s).buffer = s.buffer := by
    rw [ZPHS01B.readCmd, ZPHS01B.sendCmd_eq]
  have h1 := ZPHS01B.readData_insufficient L (ZPHS01B._sendCmd ZPHS01B.readCmd s)
    (by rw [hrx]; exact h)
  refine ⟨{ ZPHS01B._sendCmd ZPHS01B.readCmd s with
      rx := ZPHS01B.syncLoop (ZPHS01B._sendCmd ZPHS01B.readCmd s).rx }, ?_, hbuf, ?_⟩
  · unfold ZPHS01B.read
    simp only [h1]
    rfl
  · simp only [ZPHS01B.getCO2, ZPHS01B.field, hbuf]

/-- Witness for C4: two stray bytes followed by the first five bytes of a frame,
with `goodBuffer` cached. -/
theorem read_insufficient_keeps_cache_witness :
    ∃ s1, ZPHS01B.read multiGasLayout ⟨[0x01, 0x02, 0xFF, 0x86, 0x00, 0x0A, 0x00], [],
        goodBuffer⟩ = some (false, s1) ∧
      s1.buffer = goodBuffer ∧
      ZPHS01B.getCO2 multiGasLayout s1
        = ZPHS01B.getCO2 multiGasLayout ⟨[0x01, 0x02, 0xFF, 0x86, 0x00, 0x0A, 0x00], [],
            goodBuffer⟩ :=
  read_insufficient_keeps_cache multiGasLayout
    ⟨[0x01, 0x02, 0xFF, 0x86, 0x00, 0x0A, 0x00], [], goodBuffer⟩ (by decide)

/-! Commands -/

/-- C5: for all bytes code, param1, param2 the command checksum is
((~(0x01 + code + param1 + param2)) + 1) mod 256, and
(0x01 + code + param1 + param2 + checksum) mod 256 = 0. -/
theorem calcCmdCheckSum_spec (code param1 param2 : Byte) :
    ZPHS01B._calcCmdCheckSum [code, param1, param2]
        = toUint8 (~~~((0x01 + code.val + param1.val + param2.val : Nat) : Int) + 1) ∧
      (0x01 + code.val + param1.val + param2.val
        + ZPHS01B._calcCmdCheckSum [code, param1, param2]) % 256 = 0 := by
  rw [ZPHS01B.calcCmdCheckSum_eq]
  refine ⟨rfl, ?_⟩
  rw [ZPHS01B.checkValue_eq]
  omega

/-- C6: the command checksum of the read command bytes 86 00 00 is 0x79, the
fourth byte of the command array of `read` and the last byte `read` transmits. -/
theorem read_command_checksum :
    ZPHS01B._calcCmdCheckSum [0x86, 0x00, 0x00] = 0x79 ∧
      ZPHS01B._calcCmdCheckSum (ZPHS01B.readCmd.take 3) = (ZPHS01B.readCmd.getD 3 0).val ∧
      ∀ s : ZPHS01B, (ZPHS01B._sendCmd ZPHS01B.readCmd s).tx.getLast? = some 0x79 := by
  refine ⟨by decide, by decide, ?_⟩
  intro s
  rw [ZPHS01B.readCmd, ZPHS01B.sendCmd_eq]
  simp

/-- C7: `_sendCmd` with the 4-byte command c0 c1 c2 c3 appends exactly the nine
bytes FF 01 c0 c1 c2 00 00 00 c3 to the output and changes nothing else; `read`
(with SIZEOF_FRAME <= 256, the range of the 8-bit loop counter) returns and has
appended exactly FF 01 86 00 00 00 00 00 79. -/
theorem sendCmd_frame (c0 c1 c2 c3 : Byte) (s : ZPHS01B) :
    ZPHS01B._sendCmd [c0, c1, c2, c3] s
        = { s with tx := s.tx ++ [0xFF, 0x01, c0, c1, c2, 0x00, 0x00, 0x00, c3] } ∧
      ∀ L : Layout, L.sizeofFrame ≤ 256 →
        ∃ ok s1, ZPHS01B.read L s = some (ok, s1) ∧
          s1.tx = s.tx ++ [0xFF, 0x01, 0x86, 0x00, 0x00, 0x00, 0x00, 0x00, 0x79] := by
  refine ⟨ZPHS01B.sendCmd_eq c0 c1 c2 c3 [] s, ?_⟩
  intro L hN
  obtain ⟨ok, s1, h⟩ := ZPHS01B.readData_returns L (ZPHS01B._sendCmd ZPHS01B.readCmd s) hN
  have htx := ZPHS01B.readData_tx L _ s1 ok h
  rw [ZPHS01B.readCmd, ZPHS01B.sendCmd_eq] at htx
  refine ⟨ok, s1, ?_, htx⟩
  unfold ZPHS01B.read
  simp only [h]
  cases ok <;> rfl

/-- Witness for C7: a `read` of the response `goodWire`. -/
theorem sendCmd_frame_witness :
    ZPHS01B._sendCmd [0x86, 0x00, 0x00, 0x79] ⟨goodWire, [], []⟩
        = { (⟨goodWire, [], []⟩ : ZPHS01B) with
            tx := [] ++ [0xFF, 0x01, 0x86, 0x00, 0x00, 0x00, 0x00, 0x00, 0x79] } ∧
      multiGasLayout.sizeofFrame ≤ 256 ∧
      ∃ ok s1, ZPHS01B.read multiGasLayout ⟨goodWire, [], []⟩ = some (ok, s1) ∧
        s1.tx = [] ++ [0xFF, 0x01, 0x86, 0x00, 0x00, 0x00, 0x00, 0x00, 0x79] :=
  ⟨(sendCmd_frame 0x86 0x00 0x00 0x79 ⟨goodWire, [], []⟩).1, by decide,
    (sendCmd_frame 0x86 0x00 0x00 0x79 ⟨goodWire, [], []⟩).2 multiGasLayout (by decide)⟩

/-! Round trip of a command frame -/

/-- C8 (as stated, refuted): the frame of the read command (code 0x86, parameters
0x00, 0x00), decoded with frame size 9, is accepted, but byte 2 of the decoded
frame is 0x00 and not the code 0x86, so the bytes at positions 2, 3, 4 are not
code, param1, param2. -/
theorem command_round_trip_counterexample :
    ¬ ∃ s1, ZPHS01B._readData basicLayout ⟨ZPHS01B.commandFrame 0x86 0x00 0x00, [], []⟩
          = some (true, s1) ∧
        s1.buffer.getD 2 0 = 0x86 ∧ s1.buffer.getD 3 0 = 0x00 ∧ s1.buffer.getD 4 0 = 0x00 := by
  rintro ⟨s1, h, h2, -, -⟩
  have e : ZPHS01B._readData basicLayout ⟨ZPHS01B.commandFrame 0x86 0x00 0x00, [], []⟩
      = some (true, ⟨[], [], [0xFF, 0x01, 0x00, 0x86, 0x00, 0x00, 0x00, 0x00, 0x79]⟩) := by
    decide
  rw [e] at h
  simp only [Option.some.injEq, Prod.mk.injEq, true_and] at h
  rw [← h] at h2
  revert h2
  decide

/-- C8 (amended): with frame size 9 and the checksum in byte 8, the command frame
built from any code, param1, param2 with the checksum of `_calcCmdCheckSum` is
accepted by `_readData`, and the decoded frame holds param1 at position 2, code at
position 3 (the two are exchanged by the swap) and param2 at position 4. -/
theorem command_round_trip (L : Layout) (s : ZPHS01B) (code param1 param2 : Byte)
    (hsz : L.sizeofFrame = 9) (hck : L.checkSum = 8)
    (hrx : s.rx = ZPHS01B.commandFrame code param1 param2) :
    ∃ s1, ZPHS01B._readData L s = some (true, s1) ∧
      s1.buffer.getD 2 0 = param1 ∧ s1.buffer.getD 3 0 = code ∧
      s1.buffer.getD 4 0 = param2 := by
  have hrx2 := hrx
  rw [ZPHS01B.commandFrame_eq] at hrx2
  have hs : ZPHS01B.syncLoop s.rx = s.rx :=
    ZPHS01B.syncLoop_of_head s.rx (by rw [hrx2]; rfl)
  have hlen : L.sizeofFrame ≤ (ZPHS01B.syncLoop s.rx).length := by
    rw [hs, hrx2, hsz]
    simp
  have h := ZPHS01B.readData_of_frame L s (by omega) (by omega) (by omega) hlen
  have hsum : ZPHS01B.payloadSum L.sizeofFrame (ZPHS01B.syncLoop s.rx)
      = 0x01 + code.val + param1.val + param2.val := by
    rw [hs, hrx2, hsz]
    unfold ZPHS01B.payloadSum
    have e : Finset.Ico 1 (9 - 1) = {1, 2, 3, 4, 5, 6, 7} := by decide
    rw [e]
    simp
    omega
  have hlast : ((ZPHS01B.syncLoop s.rx).getD (L.sizeofFrame - 1) 0).val
      = ZPHS01B.checkValue (0x01 + code.val + param1.val + param2.val) := by
    rw [hs, hrx2, hsz]
    show ZPHS01B._calcCmdCheckSum [code, param1, param2] % 256 = _
    rw [ZPHS01B.calcCmdCheckSum_eq]
    exact Nat.mod_eq_of_lt (ZPHS01B.toUint8_lt _)
  rw [hsum, hlast, decide_eq_true rfl] at h
  refine ⟨_, h, ?_, ?_, ?_⟩
  · show (ZPHS01B.received L s).getD 2 0 = _
    rw [ZPHS01B.received_getD L s (by omega) hlen 2 (by omega), hs, hrx2]
    rfl
  · show (ZPHS01B.received L s).getD 3 0 = _
    rw [ZPHS01B.received_getD L s (by omega) hlen 3 (by omega), hs, hrx2]
    rfl
  · show (ZPHS01B.received L s).getD 4 0 = _
    rw [ZPHS01B.received_getD L s (by omega) hlen 4 (by omega), hs, hrx2]
    rfl

/-- Witness for C8 (amended): the command with code 0x86 and parameters 0x12,
0x34. -/
theorem command_round_trip_witness :
    ∃ s1, ZPHS01B._readData basicLayout ⟨ZPHS01B.commandFrame 0x86 0x12 0x34, [], []⟩
        = some (true, s1) ∧
      s1.buffer.getD 2 0 = 0x12 ∧ s1.buffer.getD 3 0 = 0x86 ∧ s1.buffer.getD 4 0 = 0x34 :=
  command_round_trip basicLayout ⟨ZPHS01B.commandFrame 0x86 0x12 0x34, [], []⟩
    0x86 0x12 0x34 (by decide) (by decide) rfl

/-! Field accessors -/

/-- C9: for every cached frame, `getCO2`, `getPM1`, `getPM2` and `getHumidity`
return high*256 + low of their own two-byte field, a value in 0..65535. -/
theorem word_accessors (L : Layout) (s : ZPHS01B) :
    (ZPHS01B.getCO2 L s = (s.field L.co2 0).val * 256 + (s.field L.co2 1).val ∧
      ZPHS01B.getCO2 L s ≤ 65535) ∧
    (ZPHS01B.getPM1 L s = (s.field L.pm1 0).val * 256 + (s.field L.pm1 1).val ∧
      ZPHS01B.getPM1 L s ≤ 65535) ∧
    (ZPHS01B.getPM2 L s = (s.field L.pm2 0).val * 256 + (s.field L.pm2 1).val ∧
      ZPHS01B.getPM2 L s ≤ 65535) ∧
    (ZPHS01B.getHumidity L s
        = (s.field L.humidity 0).val * 256 + (s.field L.humidity 1).val ∧
      ZPHS01B.getHumidity L s ≤ 65535) := by
  unfold ZPHS01B.getCO2 ZPHS01B.getPM1 ZPHS01B.getPM2 ZPHS01B.getHumidity
  simp only [ZPHS01B.toUint16_word]
  have hb : ∀ b : Byte, b.val ≤ 255 := fun b => Nat.le_of_lt_succ b.isLt
  have h1 := hb (s.field L.co2 0)
  have h2 := hb (s.field L.co2 1)
  have h3 := hb (s.field L.pm1 0)
  have h4 := hb (s.field L.pm1 1)
  have h5 := hb (s.field L.pm2 0)
  have h6 := hb (s.field L.pm2 1)
  have h7 := hb (s.field L.humidity 0)
  have h8 := hb (s.field L.humidity 1)
  refine ⟨⟨trivial, ?_⟩, ⟨trivial, ?_⟩, ⟨trivial, ?_⟩, ⟨trivial, ?_⟩⟩ <;> omega

/-- C10 (the code departs from the claim): with the frame `goodBuffer` cached, whose
CH2O field is 05 DC (raw 1500), the scaled value 1500 × 0.001 = 1.5 is formed and
then loses its fraction in the conversion to the unsigned integer return type:
`getCH2O` returns 1, which is not 1.5. -/
theorem getCH2O_fraction_lost :
    ZPHS01B.getCH2O multiGasLayout ⟨[], [], goodBuffer⟩ = some 1 ∧
      (ZPHS01B.field ⟨[], [], goodBuffer⟩ multiGasLayout.ch2o 0).val * 256
        + (ZPHS01B.field ⟨[], [], goodBuffer⟩ multiGasLayout.ch2o 1).val = 1500 ∧
      ((1 : Nat) : ℚ) ≠ ((1500 : Nat) : ℚ) * 0.001 := by
  refine ⟨ZPHS01B.floatToUint16_scaled 5 220, by decide, ?_⟩
  norm_num

/-! Further auxiliary facts -/

namespace ZPHS01B

theorem floatToUint16_tenth (n : Nat) (h : n / 10 ≤ 65535) :
    floatToUint16 (((n : Int) : ℚ) * 0.1) = some (n / 10) := by
  have e : ((n : Int) : ℚ) * 0.1 = ((n : Int) : ℚ) / ((10 : Nat) : ℚ) := by
    push_cast
    norm_num
    ring
  have hnn : (0 : ℚ) ≤ ((n : Int) : ℚ) / ((10 : Nat) : ℚ) := by
    positivity
  unfold floatToUint16
  rw [e]
  simp only [hnn, if_true, Rat.floor_intCast_div_natCast]
  have hb : (n : Int) / ((10 : Nat) : Int) = ((n / 10 : Nat) : Int) := by
    norm_cast
  rw [hb, if_pos (by omega), Int.toNat_ofNat]

theorem floatToUint16_below (x : ℚ) (h : x ≤ -1) : floatToUint16 x = none := by
  unfold floatToUint16
  have hneg : ¬ (0 : ℚ) ≤ x := by
    intro h0
    linarith
  have hc : ⌈x⌉ ≤ -1 := by
    rw [Int.ceil_le]
    exact_mod_cast h
  simp only [hneg, if_false]
  rw [if_neg (by omega)]

theorem getTemp_of_ge (L : Layout) (s : ZPHS01B)
    (h : 500 ≤ (s.field L.temperature 0).val * 256 + (s.field L.temperature 1).val) :
    getTemp L s
      = some (((s.field L.temperature 0).val * 256 + (s.field L.temperature 1).val - 500)
          / 10) := by
  have hb0 := (s.field L.temperature 0).isLt
  have hb1 := (s.field L.temperature 1).isLt
  have e : (((s.field L.temperature 0).val : Int) * 256 + ((s.field L.temperature 1).val : Int)
        - 500)
      = (((s.field L.temperature 0).val * 256 + (s.field L.temperature 1).val - 500 : Nat)
          : Int) := by
    omega
  unfold getTemp
  rw [e]
  exact floatToUint16_tenth _ (by omega)

theorem getTemp_of_le (L : Layout) (s : ZPHS01B)
    (h : (s.field L.temperature 0).val * 256 + (s.field L.temperature 1).val ≤ 490) :
    getTemp L s = none := by
  unfold getTemp
  apply floatToUint16_below
  have hq : ((((s.field L.temperature 0).val : Int) * 256
      + ((s.field L.temperature 1).val : Int) - 500 : Int) : ℚ) ≤ -10 := by
    have hz : (((s.field L.temperature 0).val : Int) * 256
        + ((s.field L.temperature 1).val : Int) - 500 : Int) ≤ -10 := by
      omega
    exact_mod_cast hz
  have e : ((((s.field L.temperature 0).val : Int) * 256
      + ((s.field L.temperature 1).val : Int) - 500 : Int) : ℚ) * 0.1
      = ((((s.field L.temperature 0).val : Int) * 256
      + ((s.field L.temperature 1).val : Int) - 500 : Int) : ℚ) / 10 := by
    norm_num
    ring
  rw [e]
  linarith

theorem peek_cons_ne (b : Byte) (rest : List Byte) :
    peek (b :: rest) ≠ 0xFF ↔ b ≠ 0xFF := by
  unfold peek
  constructor
  · intro h hb
    apply h
    rw [hb]
    rfl
  · intro h hb
    apply h
    apply Fin.ext
    have : (b.val : Int) = 255 := hb
    show b.val = 255
    omega

theorem syncLoop_cons (b : Byte) (rest : List Byte) :
    syncLoop (b :: rest) = if b ≠ 0xFF then syncLoop rest else b :: rest := by
  have hav : available (b :: rest) ≠ 0 := by
    unfold available
    rw [List.length_cons]
    omega
  by_cases hb : b ≠ 0xFF
  · rw [if_pos hb, syncLoop, if_pos ⟨(peek_cons_ne b rest).mpr hb, hav⟩]
  · rw [if_neg hb, syncLoop, if_neg (fun hc => hb ((peek_cons_ne b rest).mp hc.1))]

theorem syncLoop_eq_dropWhile (rx : List Byte) :
    syncLoop rx = rx.dropWhile (fun b => decide (b ≠ 0xFF)) := by
  induction rx with
  | nil => rfl
  | cons b rest ih =>
    rw [syncLoop_cons, List.dropWhile_cons]
    by_cases hb : b ≠ 0xFF
    · rw [if_pos hb, ih]
      simp [hb]
    · rw [if_neg hb]
      simp [hb]

theorem syncLoop_split (rx : List Byte) :
    ∃ pre, rx = pre ++ syncLoop rx ∧ (∀ b ∈ pre, b ≠ 0xFF) ∧
      (syncLoop rx = [] ∨ (syncLoop rx).head? = some 0xFF) := by
  induction rx with
  | nil => exact ⟨[], rfl, by simp, Or.inl rfl⟩
  | cons b rest ih =>
    rw [syncLoop_cons]
    by_cases hb : b ≠ 0xFF
    · obtain ⟨pre, h1, h2, h3⟩ := ih
      rw [if_pos hb]
      refine ⟨b :: pre, ?_, ?_, h3⟩
      · rw [List.cons_append, ← h1]
      · intro x hx
        rcases List.mem_cons.mp hx with rfl | hx
        · exact hb
        · exact h2 x hx
    · rw [if_neg hb]
      refine ⟨[], rfl, by simp, Or.inr ?_⟩
      rw [not_not] at hb
      rw [hb]
      rfl

theorem readData_true_inv (L : Layout) (s s1 : ZPHS01B)
    (h : _readData L s = some (true, s1)) :
    L.sizeofFrame ≤ (syncLoop s.rx).length ∧ s1.buffer = received L s ∧
      s1.rx = (syncLoop s.rx).drop L.sizeofFrame := by
  unfold _readData at h
  simp only [readBytes] at h
  split at h
  · simp at h
  · rename_i hav
    refine ⟨?_, ?_, ?_⟩
    · unfold available at hav
      omega
    · split at h
      · exact absurd h (by simp)
      · split at h <;>
        · simp only [Option.some.injEq, Prod.mk.injEq] at h
          rw [← h.2]
          rfl
    · split at h
      · exact absurd h (by simp)
      · split at h <;>
        · simp only [Option.some.injEq, Prod.mk.injEq] at h
          rw [← h.2]

theorem received_getD_zero (L : Layout) (s : ZPHS01B) (h1 : 1 ≤ L.sizeofFrame)
    (hlen : L.sizeofFrame ≤ (syncLoop s.rx).length) :
    (received L s).getD 0 0 = (syncLoop s.rx).getD 0 0 := by
  unfold received swap23
  rw [getD_set_ne _ _ _ _ (by omega), getD_set_ne _ _ _ _ (by omega),
    getD_take_append _ _ _ _ hlen (by omega)]

theorem sum_getD_append (p t : List Byte) :
    Finset.sum (Finset.range p.length) (fun k => ((p ++ t).getD k 0).val)
      = (p.map Fin.val).sum := by
  induction p with
  | nil => simp
  | cons a p ih =>
    rw [List.length_cons, Finset.sum_range_succ']
    simp only [List.cons_append, List.getD_cons_succ, List.getD_cons_zero, List.map_cons,
      List.sum_cons]
    rw [ih]
    omega

theorem payloadSum_frame (N : Nat) (h c : Byte) (p rest : List Byte)
    (hp : p.length + 2 = N) :
    payloadSum N (h :: (p ++ c :: rest)) = (p.map Fin.val).sum := by
  unfold payloadSum
  have e : N - 1 = p.length + 1 := by omega
  rw [e, Finset.sum_Ico_eq_sum_range]
  simp only [Nat.add_sub_cancel]
  rw [← sum_getD_append p (c :: rest)]
  apply Finset.sum_congr rfl
  intro k _
  rw [Nat.add_comm 1 k, List.getD_cons_succ]

theorem frame_last (N : Nat) (h c : Byte) (p rest : List Byte) (hp : p.length + 2 = N) :
    (h :: (p ++ c :: rest)).getD (N - 1) 0 = c := by
  have e : N - 1 = p.length + 1 := by omega
  rw [e, List.getD_cons_succ, List.getD_eq_getElem?_getD,
    List.getElem?_append_right (Nat.le_refl _)]
  simp

theorem readData_of_parts (L : Layout) (s : ZPHS01B) (h5 : 5 ≤ L.sizeofFrame)
    (hN : L.sizeofFrame ≤ 256) (hck : L.checkSum = L.sizeofFrame - 1)
    (c : Byte) (p rest : List Byte) (hs : s.rx = 0xFF :: (p ++ c :: rest))
    (hp : p.length + 2 = L.sizeofFrame) :
    ∃ s1, _readData L s = some (decide (checkValue (p.map Fin.val).sum = c.val), s1) := by
  have hh : syncLoop s.rx = s.rx := syncLoop_of_head s.rx (by rw [hs]; rfl)
  have hlen : L.sizeofFrame ≤ (syncLoop s.rx).length := by
    rw [hh, hs]
    simp
    omega
  have h := readData_of_frame L s h5 hN hck hlen
  rw [hh, hs, payloadSum_frame _ _ _ _ _ hp, frame_last _ _ _ _ _ hp] at h
  exact ⟨_, h⟩

theorem getVOC_one (L : Layout) (s : ZPHS01B) : getVOC L 1 s = (s.field L.voc 0).val := by
  have hb := (s.field L.voc 0).isLt
  unfold getVOC scalar toUint16
  simp only [List.range, List.range.loop, List.map_cons, List.map_nil, List.sum_cons,
    List.sum_nil, pow_zero]
  omega

theorem getVOC_two (L : Layout) (s : ZPHS01B) :
    getVOC L 2 s = (s.field L.voc 0).val + (s.field L.voc 1).val * 256 := by
  have hb0 := (s.field L.voc 0).isLt
  have hb1 := (s.field L.voc 1).isLt
  unfold getVOC scalar toUint16
  simp only [List.range, List.range.loop, List.map_cons, List.map_nil, List.sum_cons,
    List.sum_nil, pow_zero, pow_one]
  omega

end ZPHS01B

/-! Temperature and VOC accessors -/

/-- C11 (the code departs from the claim): the response `coldWire` is accepted and
leaves `coldBuffer` in the cache, whose temperature field is 01 90 (raw 400, that
is ten degrees below zero); for this frame the conversion of (400 - 500) × 0.1 = -10
to the unsigned return type of `getTemp` is not defined, so no value -10 is
returned. -/
theorem getTemp_subzero_undefined :
    ZPHS01B._readData multiGasLayout ⟨coldWire, [], goodBuffer⟩
        = some (true, ⟨[], [], coldBuffer⟩) ∧
      (ZPHS01B.field ⟨[], [], coldBuffer⟩ multiGasLayout.temperature 0).val * 256
        + (ZPHS01B.field ⟨[], [], coldBuffer⟩ multiGasLayout.temperature 1).val = 400 ∧
      ZPHS01B.getTemp multiGasLayout ⟨[], [], coldBuffer⟩ = none := by
  refine ⟨by decide, by decide, ?_⟩
  exact ZPHS01B.getTemp_of_le multiGasLayout ⟨[], [], coldBuffer⟩ (by decide)

/-- C17: for a cached frame whose raw temperature raw = temperature[0]*256 +
temperature[1] is at least 500 (it is at most 65535), `getTemp` returns
floor((raw - 500) / 10). -/
theorem getTemp_whole_degrees (L : Layout) (s : ZPHS01B)
    (h : 500 ≤ (s.field L.temperature 0).val * 256 + (s.field L.temperature 1).val) :
    (s.field L.temperature 0).val * 256 + (s.field L.temperature 1).val ≤ 65535 ∧
      ZPHS01B.getTemp L s
        = some (((s.field L.temperature 0).val * 256 + (s.field L.temperature 1).val - 500)
            / 10) := by
  have hb0 := (s.field L.temperature 0).isLt
  have hb1 := (s.field L.temperature 1).isLt
  exact ⟨by omega, ZPHS01B.getTemp_of_ge L s h⟩

/-- Witness for C17: the frame `goodBuffer`, temperature field 02 EE (raw 750),
gives 25. -/
theorem getTemp_whole_degrees_witness :
    (ZPHS01B.field ⟨[], [], goodBuffer⟩ multiGasLayout.temperature 0).val * 256
        + (ZPHS01B.field ⟨[], [], goodBuffer⟩ multiGasLayout.temperature 1).val ≤ 65535 ∧
      ZPHS01B.getTemp multiGasLayout ⟨[], [], goodBuffer⟩
        = some (((ZPHS01B.field ⟨[], [], goodBuffer⟩ multiGasLayout.temperature 0).val * 256
            + (ZPHS01B.field ⟨[], [], goodBuffer⟩ multiGasLayout.temperature 1).val - 500)
            / 10) :=
  getTemp_whole_degrees multiGasLayout ⟨[], [], goodBuffer⟩ (by decide)

/-- C12 (as stated, refuted): with the frame `goodBuffer` cached, the bytes at the
offset of `voc` are 01 02, so high*256 + low is 258; `getVOC` returns 1 when `voc`
is a one-byte member and 513 when it is a two-byte member. -/
theorem getVOC_counterexample :
    (ZPHS01B.field ⟨[], [], goodBuffer⟩ multiGasLayout.voc 0).val * 256
        + (ZPHS01B.field ⟨[], [], goodBuffer⟩ multiGasLayout.voc 1).val = 258 ∧
      ZPHS01B.getVOC multiGasLayout 1 ⟨[], [], goodBuffer⟩ = 1 ∧
      ZPHS01B.getVOC multiGasLayout 2 ⟨[], [], goodBuffer⟩ = 513 := by
  decide

/-- C12 (amended): for every cached frame, `getVOC` returns the member `voc` as it
is stored, without forming high*256 + low: for a one-byte member the byte at the
offset of `voc` (a value in 0..255), for a two-byte member that byte as the low
byte and the next one as the high byte. -/
theorem getVOC_stored_value (L : Layout) (s : ZPHS01B) :
    ZPHS01B.getVOC L 1 s = (s.field L.voc 0).val ∧ ZPHS01B.getVOC L 1 s ≤ 255 ∧
      ZPHS01B.getVOC L 2 s = (s.field L.voc 0).val + (s.field L.voc 1).val * 256 := by
  have hb := (s.field L.voc 0).isLt
  refine ⟨ZPHS01B.getVOC_one L s, ?_, ZPHS01B.getVOC_two L s⟩
  rw [ZPHS01B.getVOC_one]
  omega

/-- C20: for every cached frame, `getCH2O`, `getCO`, `getO3` and `getNO2` each
return floor((high*256 + low) / 1000) of their two-byte field, an integer in
0..65. -/
theorem scaled_accessors_floor (L : Layout) (s : ZPHS01B) :
    (ZPHS01B.getCH2O L s
        = some (((s.field L.ch2o 0).val * 256 + (s.field L.ch2o 1).val) / 1000) ∧
      ((s.field L.ch2o 0).val * 256 + (s.field L.ch2o 1).val) / 1000 ≤ 65) ∧
    (ZPHS01B.getCO L s
        = some (((s.field L.co 0).val * 256 + (s.field L.co 1).val) / 1000) ∧
      ((s.field L.co 0).val * 256 + (s.field L.co 1).val) / 1000 ≤ 65) ∧
    (ZPHS01B.getO3 L s
        = some (((s.field L.o3 0).val * 256 + (s.field L.o3 1).val) / 1000) ∧
      ((s.field L.o3 0).val * 256 + (s.field L.o3 1).val) / 1000 ≤ 65) ∧
    (ZPHS01B.getNO2 L s
        = some (((s.field L.no2 0).val * 256 + (s.field L.no2 1).val) / 1000) ∧
      ((s.field L.no2 0).val * 256 + (s.field L.no2 1).val) / 1000 ≤ 65) := by
  have key : ∀ hi lo : Byte, (hi.val * 256 + lo.val) / 1000 ≤ 65 := by
    intro hi lo
    have h1 := hi.isLt
    have h2 := lo.isLt
    omega
  exact ⟨⟨ZPHS01B.floatToUint16_scaled _ _, key _ _⟩,
    ⟨ZPHS01B.floatToUint16_scaled _ _, key _ _⟩,
    ⟨ZPHS01B.floatToUint16_scaled _ _, key _ _⟩,
    ⟨ZPHS01B.floatToUint16_scaled _ _, key _ _⟩⟩

/-- C13: a call of any accessor leaves the object and the stream as they were, two
calls in a row return the same value, and the value depends on the cached frame
alone. -/
theorem accessor_pure (L : Layout) (vocSize : Nat) (a : ZPHS01B.Accessor) (s : ZPHS01B) :
    (ZPHS01B.callAccessor L vocSize a s).2 = s ∧
      (ZPHS01B.callAccessor L vocSize a (ZPHS01B.callAccessor L vocSize a s).2).1
        = (ZPHS01B.callAccessor L vocSize a s).1 ∧
      ∀ rx tx : List Byte,
        (ZPHS01B.callAccessor L vocSize a ⟨rx, tx, s.buffer⟩).1
          = (ZPHS01B.callAccessor L vocSize a s).1 := by
  cases a <;> exact ⟨rfl, rfl, fun _ _ => rfl⟩

/-! Synchronisation and consumption of the stream -/

/-- C14: for every finite input stream the synchronisation loop ends (`syncLoop` is
a total function), and what it discards is the longest run of leading bytes with no
0xFF: the stream splits into the discarded bytes, none of them 0xFF, followed by
what is left, which is empty or starts with 0xFF. -/
theorem syncLoop_discards_to_header (rx : List Byte) :
    ZPHS01B.syncLoop rx = rx.dropWhile (fun b => decide (b ≠ 0xFF)) ∧
      ∃ pre, rx = pre ++ ZPHS01B.syncLoop rx ∧ (∀ b ∈ pre, b ≠ 0xFF) ∧
        (ZPHS01B.syncLoop rx = [] ∨ (ZPHS01B.syncLoop rx).head? = some 0xFF) :=
  ⟨ZPHS01B.syncLoop_eq_dropWhile rx, ZPHS01B.syncLoop_split rx⟩

/-- C15: when the stream, after synchronisation, holds at least N = SIZEOF_FRAME
bytes w[0..N-1] (4 <= N <= 256), `_readData` returns, has consumed exactly those N
bytes, and leaves buffer[2] = w[3], buffer[3] = w[2] and buffer[i] = w[i] for every
other i below N. -/
theorem readData_consumes_frame (L : Layout) (s : ZPHS01B)
    (h4 : 4 ≤ L.sizeofFrame) (hN : L.sizeofFrame ≤ 256)
    (hlen : L.sizeofFrame ≤ (ZPHS01B.syncLoop s.rx).length) :
    ∃ ok s1, ZPHS01B._readData L s = some (ok, s1) ∧
      ZPHS01B.syncLoop s.rx = (ZPHS01B.syncLoop s.rx).take L.sizeofFrame ++ s1.rx ∧
      s1.buffer.getD 2 0 = (ZPHS01B.syncLoop s.rx).getD 3 0 ∧
      s1.buffer.getD 3 0 = (ZPHS01B.syncLoop s.rx).getD 2 0 ∧
      ∀ i, i < L.sizeofFrame → i ≠ 2 → i ≠ 3 →
        s1.buffer.getD i 0 = (ZPHS01B.syncLoop s.rx).getD i 0 := by
  refine ⟨_, _, ZPHS01B.readData_of_enough L s (by omega) hN hlen, ?_, ?_, ?_, ?_⟩
  · exact (List.take_append_drop _ _).symm
  · show (ZPHS01B.received L s).getD 2 0 = _
    rw [ZPHS01B.received_getD L s h4 hlen 2 (by omega)]
    rfl
  · show (ZPHS01B.received L s).getD 3 0 = _
    rw [ZPHS01B.received_getD L s h4 hlen 3 (by omega)]
    rfl
  · intro i hi h2 h3
    show (ZPHS01B.received L s).getD i 0 = _
    rw [ZPHS01B.received_getD L s h4 hlen i hi, if_neg h2, if_neg h3]

/-- Witness for C15: two stray bytes, the response `goodWire` and one byte more. -/
theorem readData_consumes_frame_witness :
    ∃ ok s1, ZPHS01B._readData multiGasLayout ⟨[0x01, 0x02] ++ goodWire ++ [0x07], [], []⟩
        = some (ok, s1) ∧
      ZPHS01B.syncLoop ([0x01, 0x02] ++ goodWire ++ [0x07])
        = (ZPHS01B.syncLoop ([0x01, 0x02] ++ goodWire ++ [0x07])).take
            multiGasLayout.sizeofFrame ++ s1.rx ∧
      s1.buffer.getD 2 0 = (ZPHS01B.syncLoop ([0x01, 0x02] ++ goodWire ++ [0x07])).getD 3 0 ∧
      s1.buffer.getD 3 0 = (ZPHS01B.syncLoop ([0x01, 0x02] ++ goodWire ++ [0x07])).getD 2 0 ∧
      ∀ i, i < multiGasLayout.sizeofFrame → i ≠ 2 → i ≠ 3 →
        s1.buffer.getD i 0
          = (ZPHS01B.syncLoop ([0x01, 0x02] ++ goodWire ++ [0x07])).getD i 0 :=
  readData_consumes_frame multiGasLayout ⟨[0x01, 0x02] ++ goodWire ++ [0x07], [], []⟩
    (by decide) (by decide) (by decide)

/-- C16: when fewer than SIZEOF_FRAME bytes remain after synchronisation,
`_readData` returns false and has consumed only leading bytes other than 0xFF: the
stream is the discarded bytes followed by what is still waiting, and what is still
waiting is empty or starts with the 0xFF of the partial frame. -/
theorem readData_insufficient_keeps_partial_frame (L : Layout) (s : ZPHS01B)
    (h : (ZPHS01B.syncLoop s.rx).length < L.sizeofFrame) :
    ∃ s1 pre, ZPHS01B._readData L s = some (false, s1) ∧
      s.rx = pre ++ s1.rx ∧ (∀ b ∈ pre, b ≠ 0xFF) ∧
      (s1.rx = [] ∨ s1.rx.head? = some 0xFF) ∧
      s1.rx = s.rx.dropWhile (fun b => decide (b ≠ 0xFF)) := by
  obtain ⟨pre, h1, h2, h3⟩ := ZPHS01B.syncLoop_split s.rx
  exact ⟨_, pre, ZPHS01B.readData_insufficient L s h, h1, h2, h3,
    ZPHS01B.syncLoop_eq_dropWhile s.rx⟩

/-- Witness for C16: two stray bytes followed by the first five bytes of a frame. -/
theorem readData_insufficient_keeps_partial_frame_witness :
    ∃ s1 pre, ZPHS01B._readData multiGasLayout
        ⟨[0x01, 0x02, 0xFF, 0x86, 0x00, 0x0A, 0x00], [], goodBuffer⟩ = some (false, s1) ∧
      ([0x01, 0x02, 0xFF, 0x86, 0x00, 0x0A, 0x00] : List Byte) = pre ++ s1.rx ∧
      (∀ b ∈ pre, b ≠ 0xFF) ∧
      (s1.rx = [] ∨ s1.rx.head? = some 0xFF) ∧
      s1.rx = ([0x01, 0x02, 0xFF, 0x86, 0x00, 0x0A, 0x00] : List Byte).dropWhile
        (fun b => decide (b ≠ 0xFF)) :=
  readData_insufficient_keeps_partial_frame multiGasLayout
    ⟨[0x01, 0x02, 0xFF, 0x86, 0x00, 0x0A, 0x00], [], goodBuffer⟩ (by decide)

/-- C19: with SIZEOF_FRAME at least 1, whenever `_readData` returns true, byte 0 of
the cached frame is 0xFF, for every input stream and every prior cached frame. -/
theorem readData_true_header (L : Layout) (s s1 : ZPHS01B) (h1 : 1 ≤ L.sizeofFrame)
    (h : ZPHS01B._readData L s = some (true, s1)) :
    s1.buffer.getD 0 0 = 0xFF := by
  obtain ⟨hlen, hbuf, -⟩ := ZPHS01B.readData_true_inv L s s1 h
  rw [hbuf, ZPHS01B.received_getD_zero L s h1 hlen]
  obtain ⟨-, -, -, h3⟩ := ZPHS01B.syncLoop_split s.rx
  rcases h3 with h3 | h3
  · rw [h3] at hlen
    simp at hlen
    omega
  · cases hw : ZPHS01B.syncLoop s.rx with
    | nil => rw [hw] at h3; simp at h3
    | cons b rest =>
      rw [hw] at h3
      simpa using h3

/-- Witness for C19: the response `goodWire` after two stray bytes. -/
theorem readData_true_header_witness :
    1 ≤ multiGasLayout.sizeofFrame ∧
      ZPHS01B._readData multiGasLayout ⟨[0x01, 0x02] ++ goodWire, [], []⟩
        = some (true, ⟨[], [], goodBuffer⟩) ∧
      (⟨[], [], goodBuffer⟩ : ZPHS01B).buffer.getD 0 0 = 0xFF :=
  ⟨by decide, by decide,
    readData_true_header multiGasLayout ⟨[0x01, 0x02] ++ goodWire, [], []⟩
      ⟨[], [], goodBuffer⟩ (by decide) (by decide)⟩

/-! Order of the payload bytes -/

/-- C18: for a frame of N = SIZEOF_FRAME bytes (5 <= N <= 256, checksum in the last
byte), the checksum loop gives the same sum on a buffer before and after the
exchange of bytes 2 and 3, which also leaves byte N-1 in place; and two streams
that start with 0xFF, carry payloads (bytes 1..N-2) that are permutations of one
another and the same checksum byte get the same flag from `_readData`. -/
theorem checksum_blind_to_order (L : Layout) (s t : ZPHS01B)
    (h5 : 5 ≤ L.sizeofFrame) (hN : L.sizeofFrame ≤ 256)
    (hck : L.checkSum = L.sizeofFrame - 1)
    (c : Byte) (p q rest rest2 : List Byte)
    (hs : s.rx = 0xFF :: (p ++ c :: rest)) (ht : t.rx = 0xFF :: (q ++ c :: rest2))
    (hp : p.length + 2 = L.sizeofFrame) (hperm : p.Perm q) :
    (∀ buf : List Byte, L.sizeofFrame ≤ buf.length →
      ZPHS01B.checkSumLoop L.sizeofFrame (ZPHS01B.swap23 buf) 256 1 0
          = ZPHS01B.checkSumLoop L.sizeofFrame buf 256 1 0 ∧
        (ZPHS01B.swap23 buf).getD (L.sizeofFrame - 1) 0 = buf.getD (L.sizeofFrame - 1) 0) ∧
      ∃ ok s1 t1, ZPHS01B._readData L s = some (ok, s1) ∧
        ZPHS01B._readData L t = some (ok, t1) := by
  constructor
  · intro buf hbuf
    constructor
    · rw [ZPHS01B.checkSumLoop_eq _ _ hN 256 1 0 (by omega) (by omega) (by norm_num),
        ZPHS01B.checkSumLoop_eq _ _ hN 256 1 0 (by omega) (by omega) (by norm_num)]
      have e := ZPHS01B.payloadSum_swap23 L.sizeofFrame buf h5 (by omega)
      unfold ZPHS01B.payloadSum at e
      rw [e]
    · rw [ZPHS01B.getD_swap23 buf (by omega), if_neg (by omega), if_neg (by omega)]
  · have hq : q.length + 2 = L.sizeofFrame := by
      rw [← hperm.length_eq]
      exact hp
    obtain ⟨s1, e1⟩ := ZPHS01B.readData_of_parts L s h5 hN hck c p rest hs hp
    obtain ⟨t1, e2⟩ := ZPHS01B.readData_of_parts L t h5 hN hck c q rest2 ht hq
    have hsum : (p.map Fin.val).sum = (q.map Fin.val).sum := (hperm.map Fin.val).sum_eq
    rw [← hsum] at e2
    exact ⟨_, s1, t1, e1, e2⟩

/-- Witness for C18: the response `goodWire` and the same response with its bytes
1 and 2 exchanged. -/
theorem checksum_blind_to_order_witness :
    (∀ buf : List Byte, multiGasLayout.sizeofFrame ≤ buf.length →
      ZPHS01B.checkSumLoop multiGasLayout.sizeofFrame (ZPHS01B.swap23 buf) 256 1 0
          = ZPHS01B.checkSumLoop multiGasLayout.sizeofFrame buf 256 1 0 ∧
        (ZPHS01B.swap23 buf).getD (multiGasLayout.sizeofFrame - 1) 0
          = buf.getD (multiGasLayout.sizeofFrame - 1) 0) ∧
      ∃ ok s1 t1, ZPHS01B._readData multiGasLayout ⟨goodWire, [], []⟩ = some (ok, s1) ∧
        ZPHS01B._readData multiGasLayout
            ⟨0xFF :: ([0x00, 0x86, 0x0A, 0x00, 0x14, 0x00, 0x1E, 0x01, 0x90, 0x01,
              0x02, 0xEE, 0x01, 0xF4, 0x05, 0xDC, 0x00, 0x64, 0x00, 0x0A, 0x00, 0x05, 0x00,
              0x00] ++ [0x73]), [], []⟩
          = some (ok, t1) :=
  checksum_blind_to_order multiGasLayout ⟨goodWire, [], []⟩
    ⟨0xFF :: ([0x00, 0x86, 0x0A, 0x00, 0x14, 0x00, 0x1E, 0x01, 0x90, 0x01,
      0x02, 0xEE, 0x01, 0xF4, 0x05, 0xDC, 0x00, 0x64, 0x00, 0x0A, 0x00, 0x05, 0x00,
      0x00] ++ [0x73]), [], []⟩
    (by decide) (by decide) (by decide) 0x73
    [0x86, 0x00, 0x0A, 0x00, 0x14, 0x00, 0x1E, 0x01, 0x90, 0x01,
      0x02, 0xEE, 0x01, 0xF4, 0x05, 0xDC, 0x00, 0x64, 0x00, 0x0A, 0x00, 0x05, 0x00, 0x00]
    [0x00, 0x86, 0x0A, 0x00, 0x14, 0x00, 0x1E, 0x01, 0x90, 0x01,
      0x02, 0xEE, 0x01, 0xF4, 0x05, 0xDC, 0x00, 0x64, 0x00, 0x0A, 0x00, 0x05, 0x00, 0x00]
    [] [] rfl rfl (by decide) (List.Perm.swap _ _ _)
